import Mathlib

/-!
Shallow embedding of two Ansible modules for z/OS
(`zos_tso_command.py` and `zos_operator_outstanding_action.py`)
with theorems checking their natural-language specification.

Python strings are modelled as `List Char`, Python module results as
explicit outcome types, raised exceptions as `Except` errors.
-/

set_option autoImplicit false

namespace ZosCore

/-- Python strings, modelled as lists of characters. -/
abbrev PyStr := List Char

/-- Python whitespace for `\s`, `str.strip()` and `str.splitlines()`
(ASCII range; the console text handled by the modules is ASCII). -/
def isPySpace (c : Char) : Bool :=
  c == ' ' || c == '\t' || c == '\n' || c == '\r' || c == '\x0b' || c == '\x0c'

/-- `[0-9]`. -/
def isDigitChar (c : Char) : Bool := '0' ≤ c && c ≤ '9'

/-- `[A-Z]`. -/
def isUpperChar (c : Char) : Bool := 'A' ≤ c && c ≤ 'Z'

/-- `[a-z]`. -/
def isLowerChar (c : Char) : Bool := 'a' ≤ c && c ≤ 'z'

/-- `[A-Z0-9]`. -/
def isUpperDigitChar (c : Char) : Bool := isUpperChar c || isDigitChar c

/-- `[a-zA-Z0-9]`. -/
def isAlnumChar (c : Char) : Bool := isLowerChar c || isUpperChar c || isDigitChar c

/-- Python `str.strip()` with no argument: remove whitespace from both ends. -/
def pyStrip (l : PyStr) : PyStr :=
  ((l.dropWhile isPySpace).reverse.dropWhile isPySpace).reverse

/-- Python `str.strip('*')`: remove `*` from both ends. -/
def pyStripStar (l : PyStr) : PyStr :=
  ((l.dropWhile (· == '*')).reverse.dropWhile (· == '*')).reverse

/-- Python `str.upper()` (ASCII). -/
def pyUpper (l : PyStr) : PyStr :=
  l.map fun c => if isLowerChar c then Char.ofNat (c.toNat - 32) else c

/-- Python `str.lower()` (ASCII). -/
def pyLower (l : PyStr) : PyStr :=
  l.map fun c => if isUpperChar c then Char.ofNat (c.toNat + 32) else c

/-- Python `str.split('\n')` (no maxsplit): split at every newline,
keeping empty pieces; `''.split('\n') == ['']`. -/
def splitOnNl : PyStr → List PyStr
  | [] => [[]]
  | c :: rest =>
    if c == '\n' then [] :: splitOnNl rest
    else
      match splitOnNl rest with
      | [] => [[c]]
      | t :: ts => (c :: t) :: ts

/-- Python `str.splitlines()`: split at `\n`, `\r` and `\r\n`,
without a trailing empty piece. -/
def pySplitLines : PyStr → List PyStr
  | [] => []
  | '\r' :: '\n' :: rest => [] :: pySplitLines rest
  | c :: rest =>
    if c == '\n' || c == '\r' then [] :: pySplitLines rest
    else
      match pySplitLines rest with
      | [] => [[c]]
      | t :: ts => (c :: t) :: ts

/-- `re.split(r'\s+', l, maxs)`: split at runs of whitespace, at most `maxs`
splits, the remainder kept whole.  The modules only call this with a positive
maxsplit, so the `0` case here means "splits exhausted" (unlike `re.split`,
where maxsplit `0` means unlimited). -/
def pySplitWs : Nat → PyStr → List PyStr
  | 0, l => [l]
  | maxs + 1, l =>
    let tok := l.takeWhile fun c => !isPySpace c
    match l.dropWhile (fun c => !isPySpace c) with
    | [] => [l]
    | _ :: r2 => tok :: pySplitWs maxs (r2.dropWhile isPySpace)

/-- Python `str.split(sep, maxs)` for a one-character separator `sep`:
every single occurrence separates, so consecutive separators give empty
pieces; at most `maxs` splits, the remainder kept whole. -/
def pySplitChar (sep : Char) : Nat → PyStr → List PyStr
  | 0, l => [l]
  | maxs + 1, l =>
    let tok := l.takeWhile fun c => !(c == sep)
    match l.dropWhile (fun c => !(c == sep)) with
    | [] => [l]
    | _ :: r2 => tok :: pySplitChar sep maxs r2

/-- The character at index `i`, tested with `p` (out of range: `false`). -/
def testAt (l : PyStr) (i : Nat) (p : Char → Bool) : Bool :=
  match l.drop i with
  | [] => false
  | c :: _ => p c

/-- Length of the maximal run of characters satisfying `p` starting at `i`. -/
def runLen (l : PyStr) (i : Nat) (p : Char → Bool) : Nat :=
  ((l.drop i).takeWhile p).length

/-!  The three header regular expressions of the operator module, embedded as
decidable searches.  `re.search` succeeds iff the pattern matches starting at
some position; `\s*` can match the empty string, a greedy `[0-9]{2,}` run can
be shortened to its last two digits, and a bounded token `[A-Z0-9]{1,8}`
followed by a whitespace class must stop exactly at the end of its maximal
run (characters inside the run are not whitespace), so each search below is
an exact rendering of the backtracking semantics. -/

/-- `re.search(r'\s*[0-9]{2,}\s[A-Z]{1}\s[a-zA-Z0-9]{1,8}', line)`. -/
def pattern_without_job_id_search (line : PyStr) : Bool :=
  (List.range line.length).any fun i =>
    testAt line i isDigitChar && testAt line (i + 1) isDigitChar &&
    testAt line (i + 2) isPySpace && testAt line (i + 3) isUpperChar &&
    testAt line (i + 4) isPySpace && testAt line (i + 5) isAlnumChar

/-- `re.search(r'\s*[0-9]{2,}\s[A-Z]{1}\s[A-Z0-9]{1,8}\s+[A-Z0-9]{1,8}\s', line)`. -/
def pattern_with_job_id_search (line : PyStr) : Bool :=
  (List.range line.length).any fun i =>
    testAt line i isDigitChar && testAt line (i + 1) isDigitChar &&
    testAt line (i + 2) isPySpace && testAt line (i + 3) isUpperChar &&
    testAt line (i + 4) isPySpace &&
    (let r1 := runLen line (i + 5) isUpperDigitChar
     decide (1 ≤ r1) && decide (r1 ≤ 8) && testAt line (i + 5 + r1) isPySpace &&
     (let w := runLen line (i + 5 + r1) isPySpace
      let r2 := runLen line (i + 5 + r1 + w) isUpperDigitChar
      decide (1 ≤ r2) && decide (r2 ≤ 8) &&
      testAt line (i + 5 + r1 + w + r2) isPySpace))

/-- `re.search(r'\s*[0-9]{2,}\s[A-Z]{1}\s[A-Z0-9]{1,8}\s+', line)`. -/
def pattern_with_jobname_search (line : PyStr) : Bool :=
  (List.range line.length).any fun i =>
    testAt line i isDigitChar && testAt line (i + 1) isDigitChar &&
    testAt line (i + 2) isPySpace && testAt line (i + 3) isUpperChar &&
    testAt line (i + 4) isPySpace &&
    (let r1 := runLen line (i + 5) isUpperDigitChar
     decide (1 ≤ r1) && decide (r1 ≤ 8) && testAt line (i + 5 + r1) isPySpace)

/-!  Python dictionaries with string keys and string values, as used by the
operator module's parsers (insertion-ordered association lists with unique
keys, mirroring `dict` semantics). -/

/-- A Python `dict` mapping field names to strings. -/
abbrev PyDict := List (String × PyStr)

/-- Python `d.get(k)`: `None` when the key is absent. -/
def dictGet (d : PyDict) (k : String) : Option PyStr :=
  (d.find? fun kv => kv.1 == k).map (·.2)

/-- Python `d[k] = v`: replace in place when the key exists, else append. -/
def dictSet (d : PyDict) (k : String) (v : PyStr) : PyDict :=
  if d.any (fun kv => kv.1 == k) then
    d.map fun kv => if kv.1 == k then (k, v) else kv
  else d ++ [(k, v)]

/-- One entry of `a` after `a.update(b)`: `b`'s value when `b` binds the
same key, the original entry otherwise. -/
def updateEntry (b : PyDict) (kv : String × PyStr) : String × PyStr :=
  match dictGet b kv.1 with
  | some v => (kv.1, v)
  | none => kv

/-- Python `a.copy()` followed by `a.update(b)`: keys of `a` keep their
position with `b`'s value when `b` also binds them; keys only in `b` are
appended in `b`'s order. -/
def dictUpdate (a b : PyDict) : PyDict :=
  a.map (updateEntry b) ++ b.filter fun kv => !(a.any fun kv2 => kv2.1 == kv.1)

/-- The exceptions the operator module can raise: its own `ValidationError`
and `OperatorCmdError` classes (each storing the raw payload that the class
formats into its `msg`), and the Python built-ins `TypeError` (e.g.
`re.search` applied to `None`) and `IndexError` (list index out of range). -/
inductive PyErr
  | validationError (value : PyStr)
  | operatorCmdError (message : PyStr)
  | typeError
  | indexError
deriving DecidableEq

/-- `ValidationError.msg` / `OperatorCmdError.msg`: the message each
exception class formats from its payload. -/
def PyErr.pymsg : PyErr → PyStr
  | .validationError v =>
    "An error occurred during validate the input parameters: \"".data ++ v ++ "\"".data
  | .operatorCmdError m =>
    "An error occurred during issue the operator command, the response is \"".data ++
      m ++ "\"".data
  | .typeError => "TypeError".data
  | .indexError => "IndexError".data

/-!  `zos_operator_outstanding_action.py`: validation. -/

/-- `re.search('^[0-9]{2,}$', v)`: with no MULTILINE flag this is a full
match of two or more digits, except that `$` also matches just before a
single trailing newline. -/
def matchesNumberPattern (v : PyStr) : Bool :=
  let core := if v.getLast? == some '\n' then v.dropLast else v
  decide (2 ≤ core.length) && core.all isDigitChar

/-- `validate_parameters_based_on_regex(value, regex)`, specialised to a
given compiled pattern `pat`: pass the value through, or raise
`ValidationError(str(value))`. -/
def validate_parameters_based_on_regex (value : PyStr) (pat : PyStr → Bool) :
    Except PyErr PyStr :=
  if pat value then .ok value else .error (.validationError value)

/-- The entry loop of `request_number_list_type`: Python skips falsy entries
(`if value and value != 'all'`), so the empty string is never validated. -/
def checkRequestNumberEntries : List PyStr → Except PyErr Unit
  | [] => .ok ()
  | value :: rest =>
    if !value.isEmpty && !(value == "all".data) then
      match validate_parameters_based_on_regex value matchesNumberPattern with
      | .error e => .error e
      | .ok _ => checkRequestNumberEntries rest
    else checkRequestNumberEntries rest

/-- `request_number_list_type(arg_val, params)`: validate every entry,
returning the list unchanged when no entry raises. -/
def request_number_list_type (arg_val : List PyStr) : Except PyErr (List PyStr) :=
  (checkRequestNumberEntries arg_val).map fun _ => arg_val

/-!  `zos_operator_outstanding_action.py`: command execution and parsing. -/

/-- The value returned by the external `OperatorCmd.execute`. -/
structure RcMessage where
  rc : Int
  message : PyStr
deriving DecidableEq

/-- `execute_command(operator_cmd)`, parametrised by the external
`OperatorCmd.execute` collaborator `opExec`: raise `OperatorCmdError` on a
positive return code, else hand back the message text. -/
def execute_command (opExec : String → RcMessage) (operator_cmd : String) :
    Except PyErr PyStr :=
  let rc_message := opExec operator_cmd
  let rc := rc_message.rc
  let message := rc_message.message
  if rc > 0 then .error (.operatorCmdError message) else .ok message

/-- The loop body of `parse_result_a`.  State: emitted records `list`, the
in-progress header fields `dict_temp` and message text `request_temp`.
The source sets a misspelled fresh variable `endflag` on the last line while
the `end_flag` consulted by the guard stays `False` throughout, so the guard
below is exactly `n or m`.  Indexing `elements[4]` (resp. `elements[3]`)
raises `IndexError` when the split yields fewer fields. -/
def parseALoop : List PyStr → List PyDict → PyDict → PyStr →
    Except PyErr (List PyDict)
  | [], list, _, _ => .ok list
  | rawLine :: rest, list, dict_temp, request_temp =>
    let line := pyStrip rawLine
    let m := pattern_without_job_id_search line
    let n := pattern_with_job_id_search line
    if n || m then
      let list' :=
        if !request_temp.isEmpty then
          list ++ [dictSet dict_temp "message_text" request_temp]
        else list
      if n then
        let elements := pySplitWs 4 line
        if 5 ≤ elements.length then
          parseALoop rest list'
            [("number", elements.getD 0 []), ("type", elements.getD 1 []),
             ("system", elements.getD 2 []), ("job_id", elements.getD 3 [])]
            (pyStrip (elements.getD 4 []))
        else .error .indexError
      else
        let elements := pySplitChar ' ' 3 line
        if 4 ≤ elements.length then
          parseALoop rest list'
            [("number", elements.getD 0 []), ("type", elements.getD 1 []),
             ("system", elements.getD 2 [])]
            (pyStrip (elements.getD 3 []))
        else .error .indexError
    else
      if !request_temp.isEmpty then
        parseALoop rest list dict_temp (request_temp ++ ' ' :: line)
      else
        parseALoop rest list dict_temp request_temp

/-- `parse_result_a(result)`: scan the `d r,a,s` console output. -/
def parse_result_a (result : PyStr) : Except PyErr (List PyDict) :=
  parseALoop (splitOnNl result) [] [] []

/-- Whether a raw line of Form A output, once stripped, matches one of the
two header patterns (the `n or m` guard of the loop). -/
def headerLine (rawLine : PyStr) : Bool :=
  pattern_with_job_id_search (pyStrip rawLine) ||
  pattern_without_job_id_search (pyStrip rawLine)

/-- The number of header-matching lines of a Form A console text. -/
def headerCount (result : PyStr) : Nat :=
  (splitOnNl result).countP headerLine

/-- The loop of `parse_result_b`: one record per header-matching line. -/
def parseBLoop : List PyStr → List PyDict → Except PyErr (List PyDict)
  | [], list => .ok list
  | rawLine :: rest, list =>
    let line := pyStrip rawLine
    if pattern_with_jobname_search line then
      let elements := pySplitWs 5 line
      if 5 ≤ elements.length then
        parseBLoop rest
          (list ++ [[("number", elements.getD 0 []), ("jobname", elements.getD 2 []),
                     ("message_id", elements.getD 4 [])]])
      else .error .indexError
    else parseBLoop rest list

/-- `parse_result_b(result)`: scan the `d r,a,jn` console output. -/
def parse_result_b (result : PyStr) : Except PyErr (List PyDict) :=
  parseBLoop (splitOnNl result) []

/-- `merge_list(list_a, list_b)`: the nested loops appending
`dict_a.copy().update(dict_b)` for every pair with equal `number`. -/
def merge_list (list_a list_b : List PyDict) : List PyDict :=
  list_a.foldl
    (fun merged dict_a =>
      list_b.foldl
        (fun merged dict_b =>
          if dictGet dict_a "number" == dictGet dict_b "number" then
            merged ++ [dictUpdate dict_a dict_b]
          else merged)
        merged)
    []

/-!  `zos_operator_outstanding_action.py`: filtering. -/

/-- The validated parameters handed to `filter_requests`
(fields in the order of the module's argument spec). -/
structure QueryParams where
  request_number_list : List PyStr
  system : Option PyStr
  message_id : Option PyStr
  jobname : Option PyStr

/-- Python truthiness of an optional string: `None` and `''` are falsy. -/
def optTruthy : Option PyStr → Bool
  | none => false
  | some s => !s.isEmpty

/-- The value of an optional parameter at a use site guarded by `optTruthy`. -/
def optVal : Option PyStr → PyStr
  | none => []
  | some s => s

/-- Substring containment, testing `pat` at every start position of `v`. -/
def containsSeq (pat v : PyStr) : Bool :=
  (List.range (v.length + 1)).any fun i => pat.isPrefixOf (v.drop i)

/-- `handle_conditions(list, condition_type, condition_values)`.
`re.search(condition_values, field)` is substring containment here because
every criterion value reaching this point has been validated to
`^[a-zA-Z0-9]{1,8}$` (or is empty after `'*'`-stripping), hence holds no
regex metacharacter; `dict.get` returning `None` would make `re.search`
raise `TypeError`. -/
def handle_conditions : List PyDict → String → PyStr → Except PyErr (List PyDict)
  | [], _, _ => .ok []
  | d :: rest, condition_type, condition_values =>
    match dictGet d condition_type with
    | none => .error .typeError
    | some field =>
      match handle_conditions rest condition_type condition_values with
      | .error e => .error e
      | .ok tail =>
        .ok (if containsSeq condition_values field then d :: tail else tail)

/-- The inner loop of the number-selection step: scan the merged list for
the first record whose `number` equals the requested one, then stop. -/
def numberScan (number : PyStr) : List PyDict → Option PyDict
  | [] => none
  | d :: rest =>
    if dictGet d "number" == some number then some d else numberScan number rest

/-- The outer loop of the number-selection step: one scan per requested
number, in list order, appending each hit. -/
def numberSelect (request_number_list : List PyStr) (merged_list : List PyDict) :
    List PyDict :=
  request_number_list.foldl
    (fun newlist number =>
      match numberScan number merged_list with
      | some d => newlist ++ [d]
      | none => newlist)
    []

/-- `filter_requests(merged_list, params)`: number selection, then the
`system`, `jobname`, `message_id` filters in that order. -/
def filter_requests (merged_list : List PyDict) (params : QueryParams) :
    Except PyErr (List PyDict) := do
  let request_number_list := params.request_number_list
  let newlist :=
    if !((request_number_list.map pyLower).contains "all".data) then
      numberSelect request_number_list merged_list
    else merged_list
  let newlist ←
    if optTruthy params.system then
      handle_conditions newlist "system" (pyStripStar (pyUpper (optVal params.system)))
    else pure newlist
  let newlist ←
    if optTruthy params.jobname then
      handle_conditions newlist "jobname" (pyStripStar (pyUpper (optVal params.jobname)))
    else pure newlist
  let newlist ←
    if optTruthy params.message_id then
      handle_conditions newlist "message_id" (pyStripStar (pyUpper (optVal params.message_id)))
    else pure newlist
  return newlist

/-- Specification-side view of one attribute filter: the record's field
`k` exists and contains the criterion as a substring. -/
def fieldHasSub (d : PyDict) (k : String) (pat : PyStr) : Bool :=
  match dictGet d k with
  | some v => containsSeq pat v
  | none => false

/-- The fixed advisory message raised when filtering leaves nothing. -/
def noMatchingRequestMsg : PyStr :=
  "There is no such request given the condition, check your command or update your options.".data

/-- `create_merge_list()`: run both console commands through the adapter,
parse each output and merge. -/
def create_merge_list (opExec : String → RcMessage) : Except PyErr (List PyDict) := do
  let message_a ← execute_command opExec "d r,a,s"
  let message_b ← execute_command opExec "d r,a,jn"
  let list_a ← parse_result_a message_a
  let list_b ← parse_result_b message_b
  return merge_list list_a list_b

/-- A concrete merged record on system MV27, used by witnesses. -/
def sampleMerged1 : PyDict :=
  [("number", "001".data), ("type", "R".data), ("system", "MV27".data),
   ("job_id", "STC01537".data), ("message_text", "*399 HWSC0000I READY".data),
   ("jobname", "IM5HCONN".data), ("message_id", "HWSC0000I".data)]

/-- A concrete merged record on system MV29, used by witnesses. -/
def sampleMerged2 : PyDict :=
  [("number", "002".data), ("type", "R".data), ("system", "MV29".data),
   ("job_id", "STC01533".data), ("message_text", "*400 DFS3139I RESTART".data),
   ("jobname", "IM5GCONN".data), ("message_id", "HWSC0000I".data)]

/-- A concrete two-header Form A console text, used by witnesses: a header
line with job id, one continuation line, and a final header line. -/
def sampleConsoleA : PyStr :=
  ("101 R SYS1 STC01537 *399 HWSC0000I TEXT ONE\n IM5HCONN\n" ++
   "102 R SYS2 STC01533 *400 DFS3139I TEXT TWO").data

/-- The single record the Form A parser emits for `sampleConsoleA`
(the record opened by the final header line is dropped). -/
def sampleParsedA : PyDict :=
  [("number", "101".data), ("type", "R".data), ("system", "SYS1".data),
   ("job_id", "STC01537".data),
   ("message_text", "*399 HWSC0000I TEXT ONE IM5HCONN".data)]

/-- `find_required_request(params)`: merge, filter, and raise
`OperatorCmdError` with the fixed advisory message on an empty result. -/
def find_required_request (opExec : String → RcMessage) (params : QueryParams) :
    Except PyErr (List PyDict) := do
  let merged_list ← create_merge_list opExec
  let requests ← filter_requests merged_list params
  if !requests.isEmpty then return requests
  else .error (.operatorCmdError noMatchingRequestMsg)

/-!  `zos_tso_command.py`. -/

/-- Python values as far as the TSO module builds them, with their
hashability: a `set` display hashes each element, and hashing a `dict` or a
`list` raises `TypeError`. -/
inductive PyVal
  | int (n : Int)
  | str (s : PyStr)
  | list (xs : List PyVal)
  | dict (entries : List (String × PyVal))

/-- Whether hashing the value succeeds. -/
def PyVal.hashable : PyVal → Bool
  | .int _ => true
  | .str _ => true
  | .list _ => false
  | .dict _ => false

/-- The two shapes of `module.run_command` invocation used by
`run_tso_command`: a shell string (authorized path) or an argv list. -/
inductive TsoCmd
  | shell (cmdString : PyStr)
  | argv (args : List PyStr)

/-- The observable outcome of `run_module` in `zos_tso_command.py`:
`module.exit_json` (success), `module.fail_json` with a module-built
message, or `module.fail_json` with the generic
`"An unexpected error occurred: <traceback>"` text from the
`except Exception` handler. -/
inductive TsoOutcome
  | exitJson (changed : Bool) (msg : PyStr)
  | failJson (msg : PyStr)
  | unexpectedFailure
deriving DecidableEq

/-- `run_tso_command(command, auth, module)`, parametrised by the external
`module.run_command` collaborator: pick the authorized or unauthorized
invocation and reorder the `(rc, stdout, stderr)` triple to
`(stdout, stderr, rc)`. -/
def run_tso_command (command : PyStr) (auth : Option Bool)
    (runCommand : TsoCmd → Int × PyStr × PyStr) : PyStr × PyStr × Int :=
  let r :=
    if auth.getD false then
      runCommand (.shell (("echo ".data ++ command) ++
        "| mvscmdauth --pgm=IKJEFT01 --sysprint=* --systsprt=* --systsin=stdin".data))
    else
      runCommand (.argv ["tso".data, command])
  (r.2.1, r.2.2, r.1)

/-- The message used when the command parameter is null or blank. -/
def nullOrEmptyCommandMsg : PyStr :=
  "The \"command\" provided was null or an empty string.".data

/-- `run_module()` of `zos_tso_command.py`.  After a non-blank command runs,
the source evaluates the set display `{ret_code, content}` at
`result['result'] = {ret_code, content}`; hashing its first element, a
`dict`, raises `TypeError`, which the `except Exception` handler turns into
the generic unexpected-error failure, before the `rc == 0` test is ever
reached. -/
def tso_run_module (command : Option PyStr) (auth : Option Bool)
    (runCommand : TsoCmd → Int × PyStr × PyStr) : TsoOutcome :=
  match command with
  | none => .failJson nullOrEmptyCommandMsg
  | some cmd =>
    if (pyStrip cmd).isEmpty then .failJson nullOrEmptyCommandMsg
    else
      let sor := run_tso_command cmd auth runCommand
      let stdout := sor.1
      let rc := sor.2.2
      let ret_code : PyVal :=
        .dict [("code", .int rc), ("msg_code", .int rc), ("msg_txt", .str [])]
      let content : PyVal := .list ((pySplitLines stdout).map PyVal.str)
      if ret_code.hashable && content.hashable then
        if rc = 0 then .exitJson true "The TSO command execution succeeded.".data
        else .failJson "The TSO command execution failed.".data
      else .unexpectedFailure

/-!  Helper lemmas. -/

/-- The validation loop accepts a list whose entries are all falsy,
the literal `all`, or matching. -/
theorem checkRequestNumberEntries_ok :
    ∀ l : List PyStr,
      (∀ v ∈ l, v = [] ∨ v = "all".data ∨ matchesNumberPattern v = true) →
      checkRequestNumberEntries l = .ok () := by
  intro l
  induction l with
  | nil => intro _; rfl
  | cons a rest ih =>
    intro h
    have ha := h a (List.mem_cons_self a rest)
    have ih' := ih fun x hx => h x (List.mem_cons_of_mem _ hx)
    rcases ha with ha | ha | ha
    · simp [checkRequestNumberEntries, ha, ih']
    · simp [checkRequestNumberEntries, ha, ih']
    · by_cases he : a.isEmpty <;> by_cases hal : a == "all".data <;>
        simp [checkRequestNumberEntries, he, hal, ih',
          validate_parameters_based_on_regex, ha]

/-- The validation loop raises on the first offending entry. -/
theorem checkRequestNumberEntries_err :
    ∀ (l : List PyStr) (v : PyStr),
      (l.find? fun x => !x.isEmpty && !(x == "all".data) && !matchesNumberPattern x)
          = some v →
      checkRequestNumberEntries l = .error (.validationError v) := by
  intro l
  induction l with
  | nil => intro v h; simp [List.find?] at h
  | cons a rest ih =>
    intro v h
    rw [List.find?_cons] at h
    by_cases hp : (!a.isEmpty && !(a == "all".data) && !matchesNumberPattern a) = true
    · rw [hp] at h
      have hv : a = v := by injection h
      subst hv
      have h1 : (!a.isEmpty && !(a == "all".data)) = true :=
        (Bool.and_eq_true_iff.mp hp).1
      have h2 : matchesNumberPattern a = false := by
        have := (Bool.and_eq_true_iff.mp hp).2
        simpa using this
      simp [checkRequestNumberEntries, h1, validate_parameters_based_on_regex, h2]
    · rw [Bool.not_eq_true] at hp
      rw [hp] at h
      by_cases h1 : (!a.isEmpty && !(a == "all".data)) = true
      · have h2 : matchesNumberPattern a = true := by
          rcases Bool.eq_false_or_eq_true (matchesNumberPattern a) with hm | hm
          · exact hm
          · exfalso
            rw [h1, hm] at hp
            simp at hp
        simp [checkRequestNumberEntries, h1, validate_parameters_based_on_regex, h2,
          ih v h]
      · have h1' : (!a.isEmpty && !(a == "all".data)) = false := by
          simpa using h1
        simp [checkRequestNumberEntries, h1', ih v h]

/-- Monadic bind on `Except` applied to a success value. -/
theorem except_ok_bind {ε α β : Type} (a : α) (f : α → Except ε β) :
    (Except.ok a >>= f) = f a := rfl

/-- The inner loop of `merge_list`, expressed as filter-then-map. -/
theorem merge_inner_foldl (a : PyDict) (lb : List PyDict) :
    ∀ acc : List PyDict,
      lb.foldl
        (fun merged dict_b =>
          if dictGet a "number" == dictGet dict_b "number" then
            merged ++ [dictUpdate a dict_b]
          else merged)
        acc
      = acc ++ (lb.filter fun b => dictGet a "number" == dictGet b "number").map
          (dictUpdate a) := by
  induction lb with
  | nil => intro acc; simp
  | cons b rest ih =>
    intro acc
    simp only [List.foldl_cons]
    by_cases hb : (dictGet a "number" == dictGet b "number") = true
    · have hfil :=
        @List.filter_cons_of_pos _ (fun d => dictGet a "number" == dictGet d "number")
          b rest hb
      rw [if_pos hb, ih, hfil, List.map_cons, List.append_assoc,
        List.singleton_append]
    · have hfil :=
        @List.filter_cons_of_neg _ (fun d => dictGet a "number" == dictGet d "number")
          b rest hb
      rw [if_neg hb, ih, hfil]

/-- `merge_list` emits, for each `a` in order, the overlays with every
number-matching `b` in order. -/
theorem merge_list_eq_flatMap (list_a list_b : List PyDict) :
    merge_list list_a list_b
      = list_a.flatMap fun a =>
          (list_b.filter fun b => dictGet a "number" == dictGet b "number").map
            (dictUpdate a) := by
  suffices h : ∀ acc : List PyDict,
      list_a.foldl
        (fun merged dict_a =>
          list_b.foldl
            (fun merged dict_b =>
              if dictGet dict_a "number" == dictGet dict_b "number" then
                merged ++ [dictUpdate dict_a dict_b]
              else merged)
            merged)
        acc
      = acc ++ list_a.flatMap fun a =>
          (list_b.filter fun b => dictGet a "number" == dictGet b "number").map
            (dictUpdate a) by
    simpa [merge_list] using h []
  induction list_a with
  | nil => intro acc; simp
  | cons a rest ih =>
    intro acc
    simp only [List.foldl_cons]
    rw [merge_inner_foldl, ih, List.flatMap_cons, List.append_assoc]

/-- `find?` by key commutes with a key-preserving map. -/
theorem find?_map_fst_eq (f : String × PyStr → String × PyStr)
    (hf : ∀ kv, (f kv).1 = kv.1) (d : PyDict) (k : String) :
    ((d.map f).find? fun kv => kv.1 == k)
      = (d.find? fun kv => kv.1 == k).map f := by
  induction d with
  | nil => rfl
  | cons kv rest ih =>
    by_cases hk : (kv.1 == k) = true <;>
      simp [List.find?_cons, hf, hk, ih]

/-- `find?` ignores a filter that keeps every element the predicate
accepts. -/
theorem find?_filter_of_imp {α : Type} (l : List α) (p q : α → Bool)
    (h : ∀ x ∈ l, p x = true → q x = true) :
    (l.filter q).find? p = l.find? p := by
  induction l with
  | nil => rfl
  | cons x rest ih =>
    have ih' := ih fun y hy => h y (List.mem_cons_of_mem _ hy)
    by_cases hq : q x = true
    · by_cases hp : p x = true <;>
        simp [List.filter_cons, List.find?_cons, hq, hp, ih']
    · have hp : p x = false := by
        rcases Bool.eq_false_or_eq_true (p x) with hp | hp
        · exfalso; exact hq (h x (List.mem_cons_self x rest) hp)
        · exact hp
      have hq' : q x = false := by simpa using hq
      simp [List.filter_cons, List.find?_cons, hq', hp, ih']

/-- The overlay semantics of `dict.copy()` + `dict.update()`: `b` wins on a
key collision, `a` supplies the rest. -/
theorem dictGet_dictUpdate (a b : PyDict) (k : String) :
    dictGet (dictUpdate a b) k
      = if (dictGet b k).isSome then dictGet b k else dictGet a k := by
  have hf : ∀ kv : String × PyStr, (updateEntry b kv).1 = kv.1 := by
    intro kv
    rw [updateEntry]
    cases hbv : dictGet b kv.1 <;> simp
  conv_lhs => rw [dictGet, dictUpdate]
  rw [List.find?_append, find?_map_fst_eq _ hf]
  cases ha : a.find? fun kv => kv.1 == k with
  | some kv0 =>
    have hk : kv0.1 = k := by
      have := List.find?_some ha
      simpa using this
    cases hbv : dictGet b k with
    | some v =>
      have hu : updateEntry b kv0 = (k, v) := by rw [updateEntry, hk, hbv]
      simp [hu, hbv, Option.or]
    | none =>
      have hu : updateEntry b kv0 = kv0 := by rw [updateEntry, hk, hbv]
      simp [hu, hbv, Option.or, dictGet, ha, hk]
  | none =>
    have hnone : ∀ kv ∈ a, ¬(kv.1 == k) = true := List.find?_eq_none.mp ha
    have hq : ∀ kv ∈ b, (kv.1 == k) = true →
        (!(a.any fun kv2 => kv2.1 == kv.1)) = true := by
      intro kv _ hkv
      have hkeq : kv.1 = k := by simpa using hkv
      subst hkeq
      have hany : (a.any fun kv2 => kv2.1 == kv.1) = false := by
        rw [List.any_eq_false]
        exact hnone
      simp [hany]
    rw [find?_filter_of_imp b _ _ hq]
    cases hbv : b.find? fun kv => kv.1 == k <;>
      simp [Option.or, dictGet, ha, hbv]

/-!  Claim theorems. -/

/-- C1 (code bug evaluation): with a non-blank command, the module's own
documentation promises a success outcome with message
"The TSO command execution succeeded." for return code 0 and a failure
outcome with "The TSO command execution failed." for a nonzero code, but
evaluating the set display `{ret_code, content}` raises `TypeError`, so both
return-code cases end in the generic unexpected-error failure. -/
theorem tso_run_module_set_display_bug :
    tso_run_module (some "LU TESTUSER".data) none
        (fun _ => (0, "NO MODEL DATA SET".data, [])) = .unexpectedFailure ∧
    tso_run_module (some "LU TESTUSER".data) none
        (fun _ => (8, [], "error text".data)) = .unexpectedFailure :=
  ⟨rfl, rfl⟩

/-- C2: for every non-blank command, every auth mode and every result of the
external execution, `run_module` ends in the generic unexpected-error
failure: the set display `{ret_code, content}` holds an unhashable dict and
list, so the success exit path is unreachable. -/
theorem tso_success_path_unreachable (cmd : PyStr) (auth : Option Bool)
    (runCommand : TsoCmd → Int × PyStr × PyStr)
    (h : (pyStrip cmd).isEmpty = false) :
    tso_run_module (some cmd) auth runCommand = .unexpectedFailure := by
  simp [tso_run_module, h, PyVal.hashable]

/-- Witness for C2 at a concrete command and execution result. -/
theorem tso_success_path_unreachable_witness :
    tso_run_module (some "delete DS1".data) none
        (fun _ => (0, "ENTRY DELETED".data, [])) = .unexpectedFailure :=
  tso_success_path_unreachable "delete DS1".data none
    (fun _ => (0, "ENTRY DELETED".data, [])) (by decide)

/-- C8 (counterexample): the claim says `OperatorCmdError` is raised iff the
status code is nonzero, but the code tests `rc > 0`: a negative status code
is nonzero yet the message is returned as on success. -/
theorem execute_command_negative_rc :
    execute_command (fun _ => ⟨-2, "OUTPUT TEXT".data⟩) "d r,a,s"
        = .ok "OUTPUT TEXT".data ∧ (-2 : Int) ≠ 0 :=
  ⟨rfl, by decide⟩

/-- C8 (amended): `execute_command` raises `OperatorCmdError` carrying the
returned message iff the status code is positive; on a status code ≤ 0
(including 0) it returns the message text unchanged. -/
theorem execute_command_raises_iff_positive (opExec : String → RcMessage)
    (operator_cmd : String) :
    ((opExec operator_cmd).rc > 0 →
      execute_command opExec operator_cmd
        = .error (.operatorCmdError (opExec operator_cmd).message)) ∧
    ((opExec operator_cmd).rc ≤ 0 →
      execute_command opExec operator_cmd = .ok (opExec operator_cmd).message) := by
  constructor
  · intro h
    simp [execute_command, h]
  · intro h
    have h' : ¬(opExec operator_cmd).rc > 0 := by omega
    simp [execute_command, h']

/-- Witness for the amended C8 at a concrete positive status code. -/
theorem execute_command_raises_iff_positive_witness :
    execute_command (fun _ => ⟨4, "IEE342I MODIFY REJECTED".data⟩) "d r,a,s"
      = .error (.operatorCmdError "IEE342I MODIFY REJECTED".data) :=
  (execute_command_raises_iff_positive
    (fun _ => ⟨4, "IEE342I MODIFY REJECTED".data⟩) "d r,a,s").1 (by decide)

/-- C9 (counterexample): an empty-string entry is not the literal `all` and
does not match `^[0-9]{2,}$`, yet the validator skips it (Python falsy
test) and returns the list unchanged instead of raising. -/
theorem request_number_list_skips_falsy :
    request_number_list_type [([] : PyStr)] = .ok [[]] ∧
    ¬([] : PyStr) = "all".data ∧ matchesNumberPattern [] = false :=
  ⟨rfl, by decide, rfl⟩

/-- C9 (amended): validation raises `ValidationError` naming the first
truthy (non-empty) entry that is neither the literal `all` nor a match of
`^[0-9]{2,}$`; a list whose every entry is empty, `all`, or matching is
returned unchanged. -/
theorem request_number_list_type_spec (l : List PyStr) :
    ((∀ v ∈ l, v = [] ∨ v = "all".data ∨ matchesNumberPattern v = true) →
      request_number_list_type l = .ok l) ∧
    (∀ v : PyStr,
      (l.find? fun x => !x.isEmpty && !(x == "all".data) && !matchesNumberPattern x)
          = some v →
      request_number_list_type l = .error (.validationError v)) := by
  constructor
  · intro h
    unfold request_number_list_type
    rw [checkRequestNumberEntries_ok l h]
    rfl
  · intro v h
    unfold request_number_list_type
    rw [checkRequestNumberEntries_err l v h]
    rfl

/-- Witness for the amended C9: a compliant list passes through unchanged,
and a list with a bad entry raises naming that entry. -/
theorem request_number_list_type_spec_witness :
    request_number_list_type ["all".data, "007".data]
        = .ok ["all".data, "007".data] ∧
    request_number_list_type ["007".data, "1A".data]
        = .error (.validationError "1A".data) :=
  ⟨(request_number_list_type_spec ["all".data, "007".data]).1 (by decide),
   (request_number_list_type_spec ["007".data, "1A".data]).2 "1A".data (by decide)⟩

/-- C10: the parsers are not total: a Form A "without job id" header line of
exactly three tokens makes `elements[3]` raise `IndexError`, and a Form B
header line of only four whitespace-separated tokens makes `elements[4]`
raise `IndexError`. -/
theorem parsers_raise_index_error :
    pattern_without_job_id_search (pyStrip "123 R ABC".data) = true ∧
    parse_result_a "123 R ABC".data = .error .indexError ∧
    pattern_with_jobname_search (pyStrip "123 R ABC DEF".data) = true ∧
    parse_result_b "123 R ABC DEF".data = .error .indexError :=
  ⟨rfl, rfl, rfl, rfl⟩

/-- C5: `merge_list` is an inner join on the `number` field: every pair
with equal numbers contributes the overlay of `a` by `b` (`b` wins on key
collisions), every emitted record arises from such a pair, and a number
present in only one list yields no output record. -/
theorem merge_list_inner_join (list_a list_b : List PyDict) :
    (∀ a ∈ list_a, ∀ b ∈ list_b,
      dictGet a "number" = dictGet b "number" →
      dictUpdate a b ∈ merge_list list_a list_b) ∧
    (∀ r ∈ merge_list list_a list_b,
      ∃ a, a ∈ list_a ∧ ∃ b, b ∈ list_b ∧
        dictGet a "number" = dictGet b "number" ∧ r = dictUpdate a b) ∧
    (∀ (a b : PyDict) (k : String),
      dictGet (dictUpdate a b) k
        = if (dictGet b k).isSome then dictGet b k else dictGet a k) ∧
    (∀ n : PyStr, (∀ b ∈ list_b, ¬dictGet b "number" = some n) →
      ∀ r ∈ merge_list list_a list_b, ¬dictGet r "number" = some n) ∧
    (∀ n : PyStr, (∀ a ∈ list_a, ¬dictGet a "number" = some n) →
      ∀ r ∈ merge_list list_a list_b, ¬dictGet r "number" = some n) := by
  rw [merge_list_eq_flatMap]
  refine ⟨?_, ?_, ?_, ?_, ?_⟩
  · intro a ha b hb hn
    rw [List.mem_flatMap]
    exact ⟨a, ha, List.mem_map.mpr
      ⟨b, List.mem_filter.mpr ⟨hb, by simp [hn]⟩, rfl⟩⟩
  · intro r hr
    rw [List.mem_flatMap] at hr
    obtain ⟨a, ha, hmap⟩ := hr
    obtain ⟨b, hbf, heq⟩ := List.mem_map.mp hmap
    obtain ⟨hb, hnum⟩ := List.mem_filter.mp hbf
    exact ⟨a, ha, b, hb, by simpa using hnum, heq.symm⟩
  · exact fun a b k => dictGet_dictUpdate a b k
  · intro n hnb r hr
    rw [List.mem_flatMap] at hr
    obtain ⟨a, _, hmap⟩ := hr
    obtain ⟨b, hbf, heq⟩ := List.mem_map.mp hmap
    obtain ⟨hb, hnum⟩ := List.mem_filter.mp hbf
    subst heq
    rw [dictGet_dictUpdate]
    by_cases hsome : (dictGet b "number").isSome
    · rw [if_pos hsome]
      exact hnb b hb
    · rw [if_neg hsome]
      have hnum' : dictGet a "number" = dictGet b "number" := by simpa using hnum
      rw [hnum']
      exact hnb b hb
  · intro n hna r hr
    rw [List.mem_flatMap] at hr
    obtain ⟨a, ha, hmap⟩ := hr
    obtain ⟨b, hbf, heq⟩ := List.mem_map.mp hmap
    obtain ⟨_, hnum⟩ := List.mem_filter.mp hbf
    subst heq
    rw [dictGet_dictUpdate]
    have hnum' : dictGet a "number" = dictGet b "number" := by simpa using hnum
    by_cases hsome : (dictGet b "number").isSome
    · rw [if_pos hsome, ← hnum']
      exact hna a ha
    · rw [if_neg hsome]
      exact hna a ha

/-- Witness for C5: a concrete number-matching pair is merged with `b`'s
fields overlaid. -/
theorem merge_list_inner_join_witness :
    dictUpdate [("number", "001".data), ("system", "MV27".data)]
        [("number", "001".data), ("jobname", "IM5H".data)]
      ∈ merge_list [[("number", "001".data), ("system", "MV27".data)]]
        [[("number", "001".data), ("jobname", "IM5H".data)]] :=
  (merge_list_inner_join
      [[("number", "001".data), ("system", "MV27".data)]]
      [[("number", "001".data), ("jobname", "IM5H".data)]]).1
    [("number", "001".data), ("system", "MV27".data)] (by simp)
    [("number", "001".data), ("jobname", "IM5H".data)] (by simp)
    (by decide)

/-- The break-on-first-hit scan equals `List.find?`. -/
theorem numberScan_eq_find? (n : PyStr) :
    ∀ l : List PyDict,
      numberScan n l = l.find? fun d => dictGet d "number" == some n := by
  intro l
  induction l with
  | nil => rfl
  | cons d rest ih =>
    rw [numberScan, List.find?_cons]
    by_cases hd : (dictGet d "number" == some n) = true
    · rw [if_pos hd, hd]
    · rw [if_neg hd, ih]
      rcases Bool.eq_false_or_eq_true (dictGet d "number" == some n) with h | h
      · exact absurd h hd
      · rw [h]

/-- The number-selection loop equals a `filterMap` of first hits. -/
theorem numberSelect_eq_filterMap (rnl : List PyStr) (merged : List PyDict) :
    numberSelect rnl merged
      = rnl.filterMap fun n => merged.find? fun d => dictGet d "number" == some n := by
  suffices h : ∀ acc : List PyDict,
      rnl.foldl
        (fun newlist number =>
          match numberScan number merged with
          | some d => newlist ++ [d]
          | none => newlist)
        acc
      = acc ++ rnl.filterMap fun n =>
          merged.find? fun d => dictGet d "number" == some n by
    simpa [numberSelect] using h []
  induction rnl with
  | nil => intro acc; simp
  | cons n rest ih =>
    intro acc
    simp only [List.foldl_cons]
    rw [numberScan_eq_find? n merged]
    cases hf : merged.find? fun d => dictGet d "number" == some n with
    | some d =>
      have hfm := @List.filterMap_cons_some _ _
        (fun n : PyStr => merged.find? fun d => dictGet d "number" == some n)
        n rest d hf
      simp only [hfm, ih, List.append_assoc, List.singleton_append]
    | none =>
      have hfm := @List.filterMap_cons_none _ _
        (fun n : PyStr => merged.find? fun d => dictGet d "number" == some n)
        n rest hf
      simp only [hfm, ih]

/-- C7: with no attribute criteria, the number-selection step keeps the full
merged set unmodified when some entry lower-cases to `all`; otherwise it
keeps, per requested number in list order, exactly the first merged record
whose `number` field equals that requested number. -/
theorem filter_requests_number_selection (merged : List PyDict) (rnl : List PyStr) :
    ("all".data ∈ rnl.map pyLower →
      filter_requests merged ⟨rnl, none, none, none⟩ = .ok merged) ∧
    ("all".data ∉ rnl.map pyLower →
      filter_requests merged ⟨rnl, none, none, none⟩
        = .ok (rnl.filterMap fun n =>
            merged.find? fun d => dictGet d "number" == some n)) := by
  constructor
  · intro h
    have hc : ((rnl.map pyLower).contains "all".data) = true := by
      simpa using h
    have hcond : ¬∀ x ∈ rnl, ¬pyLower x = "all".data := by
      obtain ⟨x, hx, hpx⟩ := List.mem_map.mp h
      exact fun hall => hall x hx hpx
    simp [filter_requests, hc, optTruthy]
    rw [if_neg hcond]
    rfl
  · intro h
    have hc : ((rnl.map pyLower).contains "all".data) = false := by
      simpa using h
    have hcond : ∀ x ∈ rnl, ¬pyLower x = "all".data := by
      intro x hx hpx
      exact h (List.mem_map.mpr ⟨x, hx, hpx⟩)
    simp [filter_requests, hc, optTruthy, numberSelect_eq_filterMap]
    rw [if_pos hcond]
    rfl

/-- Witness for C7 on two concrete merged records. -/
theorem filter_requests_number_selection_witness :
    filter_requests [sampleMerged1, sampleMerged2]
        ⟨["all".data], none, none, none⟩ = .ok [sampleMerged1, sampleMerged2] ∧
    filter_requests [sampleMerged1, sampleMerged2]
        ⟨["002".data], none, none, none⟩ = .ok [sampleMerged2] := by
  constructor
  · exact (filter_requests_number_selection [sampleMerged1, sampleMerged2]
      ["all".data]).1 (by decide)
  · rw [(filter_requests_number_selection [sampleMerged1, sampleMerged2]
      ["002".data]).2 (by decide)]
    rfl

/-- An attribute filter on records that all carry the field equals a pure
`List.filter` by substring containment. -/
theorem handle_conditions_ok (k : String) (pat : PyStr) :
    ∀ l : List PyDict, (∀ d ∈ l, (dictGet d k).isSome = true) →
      handle_conditions l k pat = .ok (l.filter fun d => fieldHasSub d k pat) := by
  intro l
  induction l with
  | nil => intro _; rfl
  | cons d rest ih =>
    intro h
    obtain ⟨v, hv⟩ := Option.isSome_iff_exists.mp (h d (List.mem_cons_self d rest))
    have ih' := ih fun x hx => h x (List.mem_cons_of_mem _ hx)
    have hsub : fieldHasSub d k pat = containsSeq pat v := by
      rw [fieldHasSub, hv]
    rw [handle_conditions, hv, ih']
    by_cases hcs : containsSeq pat v = true
    · have hfil := @List.filter_cons_of_pos _ (fun d => fieldHasSub d k pat) d rest
        (by show fieldHasSub d k pat = true; rw [hsub]; exact hcs)
      rw [hfil]
      simp [hcs]
    · have hcs' : containsSeq pat v = false := by simpa using hcs
      have hfil := @List.filter_cons_of_neg _ (fun d => fieldHasSub d k pat) d rest
        (by show ¬fieldHasSub d k pat = true; rw [hsub, hcs']
            exact Bool.false_ne_true)
      rw [hfil]
      simp [hcs']

/-- C6: with `all` selected and all three criteria present, the attribute
filters compose conjunctively in the fixed order system, jobname,
message_id, each keeping exactly the records whose field contains the
upper-cased, wildcard-stripped criterion as a substring. -/
theorem filter_requests_attribute_filters (merged : List PyDict)
    (rnl : List PyStr) (s mi j : PyStr)
    (hall : "all".data ∈ rnl.map pyLower)
    (hs : s.isEmpty = false) (hmi : mi.isEmpty = false) (hj : j.isEmpty = false)
    (hkeys : ∀ d ∈ merged, (dictGet d "system").isSome = true ∧
      (dictGet d "jobname").isSome = true ∧ (dictGet d "message_id").isSome = true) :
    filter_requests merged ⟨rnl, some s, some mi, some j⟩
      = .ok (merged.filter fun d =>
          fieldHasSub d "system" (pyStripStar (pyUpper s)) &&
          fieldHasSub d "jobname" (pyStripStar (pyUpper j)) &&
          fieldHasSub d "message_id" (pyStripStar (pyUpper mi))) := by
  have hc : ((rnl.map pyLower).contains "all".data) = true := by
    simpa using hall
  have h1 := handle_conditions_ok "system" (pyStripStar (pyUpper s)) merged
    fun d hd => (hkeys d hd).1
  have h2 := handle_conditions_ok "jobname" (pyStripStar (pyUpper j))
    (merged.filter fun d => fieldHasSub d "system" (pyStripStar (pyUpper s)))
    fun d hd => (hkeys d (List.mem_filter.mp hd).1).2.1
  have h3 := handle_conditions_ok "message_id" (pyStripStar (pyUpper mi))
    ((merged.filter fun d => fieldHasSub d "system" (pyStripStar (pyUpper s))).filter
      fun d => fieldHasSub d "jobname" (pyStripStar (pyUpper j)))
    fun d hd => (hkeys d (List.mem_filter.mp (List.mem_filter.mp hd).1).1).2.2
  simp only [filter_requests, hc, Bool.not_true, Bool.false_eq_true, if_false,
    optTruthy, optVal, hs, hmi, hj, Bool.not_false, if_true, except_ok_bind, h1,
    h2, h3]
  simp only [List.filter_filter]
  show Except.ok _ = Except.ok _
  apply congrArg
  apply List.filter_congr
  intro d _
  cases fieldHasSub d "system" (pyStripStar (pyUpper s)) <;>
    cases fieldHasSub d "jobname" (pyStripStar (pyUpper j)) <;>
    cases fieldHasSub d "message_id" (pyStripStar (pyUpper mi)) <;> rfl

/-- Witness for C6: criterion `MV2*` (stripped to `MV2`) keeps both the
MV27 and the MV29 record. -/
theorem filter_requests_attribute_filters_witness :
    filter_requests [sampleMerged1, sampleMerged2]
        ⟨["all".data], some "MV2*".data, some "HWS*".data, some "IM5*".data⟩
      = .ok [sampleMerged1, sampleMerged2] := by
  rw [filter_requests_attribute_filters [sampleMerged1, sampleMerged2]
    ["all".data] "MV2*".data "HWS*".data "IM5*".data (by decide) (by decide)
    (by decide) (by decide) (by decide)]
  rfl

/-!  String lemmas for the Form A end-of-input analysis: a stripped
nonempty line ends in a non-whitespace character, the last field of its
whitespace split therefore strips to a nonempty string. -/

/-- The head surviving `dropWhile` fails the predicate. -/
theorem head?_dropWhile_eq_false {α : Type} (p : α → Bool) :
    ∀ (l : List α) (c : α), (l.dropWhile p).head? = some c → p c = false := by
  intro l
  induction l with
  | nil => intro c h; simp at h
  | cons a rest ih =>
    intro c h
    rw [List.dropWhile_cons] at h
    by_cases hp : p a = true
    · rw [if_pos hp] at h
      exact ih c h
    · rw [if_neg hp] at h
      have ha : a = c := by simpa using h
      subst ha
      simpa using hp

/-- The last element is a member. -/
theorem mem_of_getLast?_eq {α : Type} (l : List α) (a : α)
    (h : l.getLast? = some a) : a ∈ l := by
  obtain ⟨ys, rfl⟩ := List.getLast?_eq_some_iff.mp h
  exact List.mem_append_right ys (by simp)

/-- `dropWhile` keeps the last element when it fails the predicate. -/
theorem getLast?_dropWhile_of_ne {α : Type} (p : α → Bool) (l : List α) (d : α)
    (hl : l.getLast? = some d) (hd : p d = false) :
    (l.dropWhile p).getLast? = some d := by
  have hne : l.dropWhile p ≠ [] := by
    intro hnil
    have hall := List.dropWhile_eq_nil_iff.mp hnil
    have := hall d (mem_of_getLast?_eq l d hl)
    rw [hd] at this
    exact Bool.false_ne_true this
  have hsplit : l.takeWhile p ++ l.dropWhile p = l :=
    List.takeWhile_append_dropWhile p l
  rw [← hsplit, List.getLast?_append] at hl
  obtain ⟨x, hx⟩ : ∃ x, (l.dropWhile p).getLast? = some x := by
    cases hg : (l.dropWhile p).getLast? with
    | none => exact absurd (List.getLast?_eq_none_iff.mp hg) hne
    | some x => exact ⟨x, rfl⟩
  rw [hx] at hl
  have : x = d := by simpa [Option.or] using hl
  rw [← this]
  exact hx

/-- A nonempty stripped string ends in a non-whitespace character. -/
theorem pyStrip_getLast?_not_space (l : PyStr) (c : Char)
    (h : (pyStrip l).getLast? = some c) : isPySpace c = false := by
  rw [pyStrip, List.getLast?_reverse] at h
  exact head?_dropWhile_eq_false isPySpace _ c h

/-- A string whose last character is not whitespace strips to a nonempty
string. -/
theorem pyStrip_ne_nil (x : PyStr) (d : Char) (hx : x.getLast? = some d)
    (hd : isPySpace d = false) : pyStrip x ≠ [] := by
  rw [pyStrip]
  intro hnil
  rw [List.reverse_eq_nil_iff] at hnil
  have h1 : (x.dropWhile isPySpace).getLast? = some d :=
    getLast?_dropWhile_of_ne _ x d hx hd
  have hall := List.dropWhile_eq_nil_iff.mp hnil
  have hdmem : d ∈ (x.dropWhile isPySpace).reverse := by
    rw [List.mem_reverse]
    exact mem_of_getLast?_eq _ d h1
  have := hall d hdmem
  rw [hd] at this
  exact Bool.false_ne_true this

/-- A nonempty list has a last element. -/
theorem exists_getLast?_of_ne_nil {α : Type} (l : List α) (h : l ≠ []) :
    ∃ d, l.getLast? = some d := by
  cases hl : l.getLast? with
  | none => exact absurd (List.getLast?_eq_none_iff.mp hl) h
  | some d => exact ⟨d, rfl⟩

/-- Unfolding `pySplitWs` when no whitespace is found. -/
theorem pySplitWs_succ_nil (m : Nat) (l : PyStr)
    (hdw : l.dropWhile (fun c => !isPySpace c) = []) :
    pySplitWs (m + 1) l = [l] := by
  simp only [pySplitWs]
  rw [hdw]

/-- Unfolding `pySplitWs` at the first whitespace. -/
theorem pySplitWs_succ_cons (m : Nat) (l : PyStr) (w : Char) (r2 : PyStr)
    (hdw : l.dropWhile (fun c => !isPySpace c) = w :: r2) :
    pySplitWs (m + 1) l
      = (l.takeWhile fun c => !isPySpace c)
          :: pySplitWs m (r2.dropWhile isPySpace) := by
  simp only [pySplitWs]
  rw [hdw]

/-- Unfolding `pySplitChar` when no separator is found. -/
theorem pySplitChar_succ_nil (sep : Char) (m : Nat) (l : PyStr)
    (hdw : l.dropWhile (fun c => !(c == sep)) = []) :
    pySplitChar sep (m + 1) l = [l] := by
  simp only [pySplitChar]
  rw [hdw]

/-- Unfolding `pySplitChar` at the first separator. -/
theorem pySplitChar_succ_cons (sep : Char) (m : Nat) (l : PyStr) (w : Char)
    (r2 : PyStr) (hdw : l.dropWhile (fun c => !(c == sep)) = w :: r2) :
    pySplitChar sep (m + 1) l
      = (l.takeWhile fun c => !(c == sep)) :: pySplitChar sep m r2 := by
  simp only [pySplitChar]
  rw [hdw]

/-- The whitespace split never returns the empty list. -/
theorem pySplitWs_ne_nil (maxs : Nat) (l : PyStr) : pySplitWs maxs l ≠ [] := by
  cases maxs with
  | zero => simp [pySplitWs]
  | succ m =>
    cases hdw : l.dropWhile (fun c => !isPySpace c) with
    | nil => rw [pySplitWs_succ_nil m l hdw]; simp
    | cons w r2 => rw [pySplitWs_succ_cons m l w r2 hdw]; simp

/-- The separator split never returns the empty list. -/
theorem pySplitChar_ne_nil (sep : Char) (maxs : Nat) (l : PyStr) :
    pySplitChar sep maxs l ≠ [] := by
  cases maxs with
  | zero => simp [pySplitChar]
  | succ m =>
    cases hdw : l.dropWhile (fun c => !(c == sep)) with
    | nil => rw [pySplitChar_succ_nil sep m l hdw]; simp
    | cons w r2 => rw [pySplitChar_succ_cons sep m l w r2 hdw]; simp

/-- At most `maxs + 1` fields result from `maxs` splits. -/
theorem pySplitWs_length_le :
    ∀ (maxs : Nat) (l : PyStr), (pySplitWs maxs l).length ≤ maxs + 1 := by
  intro maxs
  induction maxs with
  | zero => intro l; simp [pySplitWs]
  | succ m ih =>
    intro l
    cases hdw : l.dropWhile (fun c => !isPySpace c) with
    | nil => rw [pySplitWs_succ_nil m l hdw]; simp
    | cons w r2 =>
      rw [pySplitWs_succ_cons m l w r2 hdw, List.length_cons]
      have := ih (r2.dropWhile isPySpace)
      omega

/-- At most `maxs + 1` fields result from `maxs` splits. -/
theorem pySplitChar_length_le :
    ∀ (maxs : Nat) (sep : Char) (l : PyStr),
      (pySplitChar sep maxs l).length ≤ maxs + 1 := by
  intro maxs
  induction maxs with
  | zero => intro sep l; simp [pySplitChar]
  | succ m ih =>
    intro sep l
    cases hdw : l.dropWhile (fun c => !(c == sep)) with
    | nil => rw [pySplitChar_succ_nil sep m l hdw]; simp
    | cons w r2 =>
      rw [pySplitChar_succ_cons sep m l w r2 hdw, List.length_cons]
      have := ih sep r2
      omega

/-- The last field of the whitespace split ends in the input's last
character, when that character is not whitespace. -/
theorem pySplitWs_getLast? :
    ∀ (maxs : Nat) (l : PyStr) (d : Char),
      l.getLast? = some d → isPySpace d = false →
      ∃ t, (pySplitWs maxs l).getLast? = some t ∧ t.getLast? = some d := by
  intro maxs
  induction maxs with
  | zero =>
    intro l d hl _
    exact ⟨l, by simp [pySplitWs], hl⟩
  | succ m ih =>
    intro l d hl hd
    cases hdw : l.dropWhile (fun c => !isPySpace c) with
    | nil =>
      rw [pySplitWs_succ_nil m l hdw]
      exact ⟨l, by simp, hl⟩
    | cons w r2 =>
      have hsplit : (l.takeWhile fun c => !isPySpace c) ++ (w :: r2) = l := by
        rw [← hdw]
        exact List.takeWhile_append_dropWhile _ l
      have hwlast : (w :: r2).getLast? = some d := by
        have hl' : ((l.takeWhile fun c => !isPySpace c) ++ (w :: r2)).getLast?
            = some d := by
          rw [hsplit]; exact hl
        rw [List.getLast?_append] at hl'
        cases hg : (w :: r2).getLast? with
        | none => exact absurd (List.getLast?_eq_none_iff.mp hg) (by simp)
        | some x =>
          rw [hg] at hl'
          have hx : x = d := by simpa [Option.or] using hl'
          rw [hx]
      cases r2 with
      | nil =>
        exfalso
        have hwd : w = d := by simpa using hwlast
        subst hwd
        have hw : isPySpace w = true := by
          have hhead : (l.dropWhile fun c => !isPySpace c).head? = some w := by
            rw [hdw]; rfl
          have := head?_dropWhile_eq_false (fun c => !isPySpace c) l w hhead
          simpa using this
        rw [hw] at hd
        simp at hd
      | cons y ys =>
        have hr2last : (y :: ys).getLast? = some d := by
          rw [List.getLast?_cons_cons] at hwlast
          exact hwlast
        have hdrop : ((y :: ys).dropWhile isPySpace).getLast? = some d :=
          getLast?_dropWhile_of_ne isPySpace (y :: ys) d hr2last hd
        obtain ⟨t, ht1, ht2⟩ := ih ((y :: ys).dropWhile isPySpace) d hdrop hd
        refine ⟨t, ?_, ht2⟩
        rw [pySplitWs_succ_cons m l w (y :: ys) hdw]
        cases hrec : pySplitWs m ((y :: ys).dropWhile isPySpace) with
        | nil => exact absurd hrec (pySplitWs_ne_nil m _)
        | cons z zs =>
          rw [hrec] at ht1
          rw [List.getLast?_cons_cons]
          exact ht1

/-- The last field of the separator split ends in the input's last
character, when that character is not the separator. -/
theorem pySplitChar_getLast? :
    ∀ (maxs : Nat) (sep : Char) (l : PyStr) (d : Char),
      l.getLast? = some d → (d == sep) = false →
      ∃ t, (pySplitChar sep maxs l).getLast? = some t ∧ t.getLast? = some d := by
  intro maxs
  induction maxs with
  | zero =>
    intro sep l d hl _
    exact ⟨l, by simp [pySplitChar], hl⟩
  | succ m ih =>
    intro sep l d hl hd
    cases hdw : l.dropWhile (fun c => !(c == sep)) with
    | nil =>
      rw [pySplitChar_succ_nil sep m l hdw]
      exact ⟨l, by simp, hl⟩
    | cons w r2 =>
      have hsplit : (l.takeWhile fun c => !(c == sep)) ++ (w :: r2) = l := by
        rw [← hdw]
        exact List.takeWhile_append_dropWhile _ l
      have hwlast : (w :: r2).getLast? = some d := by
        have hl' : ((l.takeWhile fun c => !(c == sep)) ++ (w :: r2)).getLast?
            = some d := by
          rw [hsplit]; exact hl
        rw [List.getLast?_append] at hl'
        cases hg : (w :: r2).getLast? with
        | none => exact absurd (List.getLast?_eq_none_iff.mp hg) (by simp)
        | some x =>
          rw [hg] at hl'
          have hx : x = d := by simpa [Option.or] using hl'
          rw [hx]
      cases r2 with
      | nil =>
        exfalso
        have hwd : w = d := by simpa using hwlast
        subst hwd
        have hw : (w == sep) = true := by
          have hhead : (l.dropWhile fun c => !(c == sep)).head? = some w := by
            rw [hdw]; rfl
          have := head?_dropWhile_eq_false (fun c => !(c == sep)) l w hhead
          simpa using this
        rw [hw] at hd
        simp at hd
      | cons y ys =>
        have hr2last : (y :: ys).getLast? = some d := by
          rw [List.getLast?_cons_cons] at hwlast
          exact hwlast
        obtain ⟨t, ht1, ht2⟩ := ih sep (y :: ys) d hr2last hd
        refine ⟨t, ?_, ht2⟩
        rw [pySplitChar_succ_cons sep m l w (y :: ys) hdw]
        cases hrec : pySplitChar sep m (y :: ys) with
        | nil => exact absurd hrec (pySplitChar_ne_nil sep m _)
        | cons z zs =>
          rw [hrec] at ht1
          rw [List.getLast?_cons_cons]
          exact ht1

/-- `getD` at the last valid index is the last element. -/
theorem getD_of_length_eq {α : Type} (dflt : α) :
    ∀ (xs : List α) (k : Nat), xs.length = k + 1 →
      xs.getD k dflt = xs.getLast?.getD dflt := by
  intro xs
  induction xs with
  | nil => intro k h; simp at h
  | cons x rest ih =>
    intro k h
    cases k with
    | zero =>
      have hr : rest = [] := by
        have : rest.length = 0 := by simpa using h
        exact List.length_eq_zero.mp this
      subst hr
      rfl
    | succ k2 =>
      have hlen : rest.length = k2 + 1 := by simpa using h
      have hgd : (x :: rest).getD (k2 + 1) dflt = rest.getD k2 dflt := by
        simp [List.getD]
      rw [hgd, ih k2 hlen]
      cases rest with
      | nil => simp at hlen
      | cons y ys => rw [List.getLast?_cons_cons]

/-- A line matching the with-job-id header is nonempty. -/
theorem line_ne_nil_of_with_job_id (line : PyStr)
    (h : pattern_with_job_id_search line = true) : line ≠ [] := by
  intro he
  rw [he] at h
  simp [pattern_with_job_id_search] at h

/-- A line matching the without-job-id header is nonempty. -/
theorem line_ne_nil_of_without_job_id (line : PyStr)
    (h : pattern_without_job_id_search line = true) : line ≠ [] := by
  intro he
  rw [he] at h
  simp [pattern_without_job_id_search] at h

/-- On a with-job-id header line, the new `request_temp`
(`elements[4].strip()`) is nonempty. -/
theorem rt_nonempty_with_job_id (raw : PyStr)
    (hn : pattern_with_job_id_search (pyStrip raw) = true)
    (hlen : 5 ≤ (pySplitWs 4 (pyStrip raw)).length) :
    (pyStrip ((pySplitWs 4 (pyStrip raw)).getD 4 [])).isEmpty = false := by
  obtain ⟨d, hd⟩ :=
    exists_getLast?_of_ne_nil _ (line_ne_nil_of_with_job_id _ hn)
  have hdns : isPySpace d = false := pyStrip_getLast?_not_space raw d hd
  obtain ⟨t, ht1, ht2⟩ := pySplitWs_getLast? 4 (pyStrip raw) d hd hdns
  have hlen5 : (pySplitWs 4 (pyStrip raw)).length = 5 :=
    Nat.le_antisymm (pySplitWs_length_le 4 _) hlen
  have hgetd : (pySplitWs 4 (pyStrip raw)).getD 4 [] = t := by
    rw [getD_of_length_eq [] _ 4 hlen5, ht1]
    rfl
  rw [hgetd, List.isEmpty_eq_false]
  exact pyStrip_ne_nil t d ht2 hdns

/-- On a without-job-id header line, the new `request_temp`
(`elements[3].strip()`) is nonempty. -/
theorem rt_nonempty_without_job_id (raw : PyStr)
    (hm : pattern_without_job_id_search (pyStrip raw) = true)
    (hlen : 4 ≤ (pySplitChar ' ' 3 (pyStrip raw)).length) :
    (pyStrip ((pySplitChar ' ' 3 (pyStrip raw)).getD 3 [])).isEmpty = false := by
  obtain ⟨d, hd⟩ :=
    exists_getLast?_of_ne_nil _ (line_ne_nil_of_without_job_id _ hm)
  have hdns : isPySpace d = false := pyStrip_getLast?_not_space raw d hd
  have hdsp : (d == ' ') = false := by
    by_cases hsp : (d == ' ') = true
    · have : d = ' ' := by simpa using hsp
      subst this
      simp [isPySpace] at hdns
    · simpa using hsp
  obtain ⟨t, ht1, ht2⟩ := pySplitChar_getLast? 3 ' ' (pyStrip raw) d hd hdsp
  have hlen4 : (pySplitChar ' ' 3 (pyStrip raw)).length = 4 :=
    Nat.le_antisymm (pySplitChar_length_le 3 ' ' _) hlen
  have hgetd : (pySplitChar ' ' 3 (pyStrip raw)).getD 3 [] = t := by
    rw [getD_of_length_eq [] _ 3 hlen4, ht1]
    rfl
  rw [hgetd, List.isEmpty_eq_false]
  exact pyStrip_ne_nil t d ht2 hdns

/-- The length invariant of the Form A loop: every header line flushes at
most the record opened before it, and the record opened by the last header
line is never emitted. -/
theorem parseALoop_length :
    ∀ (lines : List PyStr) (list : List PyDict) (dict_temp : PyDict)
      (request_temp : PyStr) (res : List PyDict),
      parseALoop lines list dict_temp request_temp = .ok res →
      res.length
          + min 1 (lines.countP headerLine
              + (if request_temp.isEmpty = true then 0 else 1))
        = list.length + (if request_temp.isEmpty = true then 0 else 1)
            + lines.countP headerLine := by
  intro lines
  induction lines with
  | nil =>
    intro list dt rt res h
    have hres : list = res := by
      simpa [parseALoop] using h
    subst hres
    by_cases hrt : rt.isEmpty = true
    · rw [if_pos hrt]
      simp
    · rw [if_neg hrt]
      simp
  | cons raw rest ih =>
    intro list dt rt res h
    simp only [parseALoop] at h
    by_cases hn : pattern_with_job_id_search (pyStrip raw) = true
    · have hnm : (pattern_with_job_id_search (pyStrip raw)
          || pattern_without_job_id_search (pyStrip raw)) = true := by
        rw [hn]
        rfl
      rw [if_pos hnm, if_pos hn] at h
      have hhd : headerLine raw = true := by
        rw [headerLine, hn]
        rfl
      by_cases hlen : 5 ≤ (pySplitWs 4 (pyStrip raw)).length
      · rw [if_pos hlen] at h
        have hrt' := rt_nonempty_with_job_id raw hn hlen
        rw [List.countP_cons_of_pos headerLine _ hhd]
        by_cases hrt : rt.isEmpty = true
        · have hcond : (!rt.isEmpty) = false := by
            rw [hrt]
            rfl
          rw [hcond] at h
          simp only [Bool.false_eq_true, if_false] at h
          have hih := ih _ _ _ _ h
          rw [hrt', if_neg Bool.false_ne_true] at hih
          rw [if_pos hrt]
          omega
        · have hrtf : rt.isEmpty = false := by simpa using hrt
          have hcond : (!rt.isEmpty) = true := by
            rw [hrtf]
            rfl
          rw [if_pos hcond] at h
          have hih := ih _ _ _ _ h
          rw [hrt', if_neg Bool.false_ne_true] at hih
          simp only [List.length_append, List.length_cons, List.length_nil]
            at hih
          rw [if_neg hrt]
          omega
      · rw [if_neg hlen] at h
        exact Except.noConfusion h
    · by_cases hm : pattern_without_job_id_search (pyStrip raw) = true
      · have hnm : (pattern_with_job_id_search (pyStrip raw)
            || pattern_without_job_id_search (pyStrip raw)) = true := by
          rw [hm, Bool.or_true]
        rw [if_pos hnm, if_neg hn] at h
        have hhd : headerLine raw = true := by
          rw [headerLine, hm, Bool.or_true]
        by_cases hlen : 4 ≤ (pySplitChar ' ' 3 (pyStrip raw)).length
        · rw [if_pos hlen] at h
          have hrt' := rt_nonempty_without_job_id raw hm hlen
          rw [List.countP_cons_of_pos headerLine _ hhd]
          by_cases hrt : rt.isEmpty = true
          · have hcond : (!rt.isEmpty) = false := by
              rw [hrt]
              rfl
            rw [hcond] at h
            simp only [Bool.false_eq_true, if_false] at h
            have hih := ih _ _ _ _ h
            rw [hrt', if_neg Bool.false_ne_true] at hih
            rw [if_pos hrt]
            omega
          · have hrtf : rt.isEmpty = false := by simpa using hrt
            have hcond : (!rt.isEmpty) = true := by
              rw [hrtf]
              rfl
            rw [if_pos hcond] at h
            have hih := ih _ _ _ _ h
            rw [hrt', if_neg Bool.false_ne_true] at hih
            simp only [List.length_append, List.length_cons, List.length_nil]
              at hih
            rw [if_neg hrt]
            omega
        · rw [if_neg hlen] at h
          exact Except.noConfusion h
      · have hnf : pattern_with_job_id_search (pyStrip raw) = false := by
          simpa using hn
        have hmf : pattern_without_job_id_search (pyStrip raw) = false := by
          simpa using hm
        have hnm : (pattern_with_job_id_search (pyStrip raw)
            || pattern_without_job_id_search (pyStrip raw)) = false := by
          rw [hnf, hmf]
          rfl
        rw [hnm] at h
        simp only [Bool.false_eq_true, if_false] at h
        have hhd : headerLine raw = false := by
          rw [headerLine, hnf, hmf]
          rfl
        rw [List.countP_cons_of_neg headerLine _
          (by rw [hhd]; exact Bool.false_ne_true)]
        by_cases hrt : rt.isEmpty = true
        · have hcond : (!rt.isEmpty) = false := by
            rw [hrt]
            rfl
          rw [hcond] at h
          simp only [Bool.false_eq_true, if_false] at h
          have hih := ih _ _ _ _ h
          rw [if_pos hrt] at hih
          rw [if_pos hrt]
          omega
        · have hrtf : rt.isEmpty = false := by simpa using hrt
          have hcond : (!rt.isEmpty) = true := by
            rw [hrtf]
            rfl
          rw [if_pos hcond] at h
          have hih := ih _ _ _ _ h
          have happ : (rt ++ ' ' :: pyStrip raw).isEmpty = false := by
            cases rt <;> rfl
          rw [happ, if_neg Bool.false_ne_true] at hih
          rw [if_neg hrt]
          omega

/-- C4: the end-of-input flag never forces a flush: for every input that
parses without error, the number of emitted records falls one short of the
number of header-matching lines (when there is at least one), so the final
in-progress record is silently dropped; a record is appended only when a
later line matches a header pattern. -/
theorem parse_result_a_drops_last (result : PyStr) (recs : List PyDict)
    (h : parse_result_a result = .ok recs) :
    recs.length + min 1 (headerCount result) = headerCount result := by
  have hinv := parseALoop_length (splitOnNl result) [] [] [] recs h
  simpa [headerCount] using hinv

/-- Witness for C4: a two-header console text parses to a single record,
the one opened by the final header line being dropped. -/
theorem parse_result_a_drops_last_witness :
    parse_result_a sampleConsoleA = .ok [sampleParsedA] ∧
    [sampleParsedA].length + min 1 (headerCount sampleConsoleA)
      = headerCount sampleConsoleA :=
  ⟨rfl, parse_result_a_drops_last sampleConsoleA [sampleParsedA] rfl⟩

/-- C3 (counterexample): when filtering leaves nothing the query fails, but
not with a distinct error kind: the very same `OperatorCmdError` value can
arise from a command failure, so the no-matching-request failure is not
distinct in kind from the command-failure error. -/
theorem no_matching_request_same_kind :
    find_required_request (fun _ => ⟨0, []⟩) ⟨["all".data], none, none, none⟩
        = .error (.operatorCmdError noMatchingRequestMsg) ∧
    execute_command (fun _ => ⟨1, noMatchingRequestMsg⟩) "d r,a,s"
        = .error (.operatorCmdError noMatchingRequestMsg) :=
  ⟨rfl, rfl⟩

/-- C3 (amended): whenever merging succeeds and the final filtered list is
empty, the query fails with the module's `OperatorCmdError` — the same kind
used for command failures — carrying the fixed advisory message. -/
theorem find_required_request_empty (opExec : String → RcMessage)
    (params : QueryParams) (merged : List PyDict)
    (h1 : create_merge_list opExec = .ok merged)
    (h2 : filter_requests merged params = .ok []) :
    find_required_request opExec params
      = .error (.operatorCmdError noMatchingRequestMsg) := by
  unfold find_required_request
  rw [h1, except_ok_bind, h2, except_ok_bind]
  rfl

/-- Witness for the amended C3 at a concrete console exchange. -/
theorem find_required_request_empty_witness :
    find_required_request (fun _ => ⟨0, "NO OUTSTANDING REPLIES".data⟩)
        ⟨["999".data], none, none, none⟩
      = .error (.operatorCmdError noMatchingRequestMsg) :=
  find_required_request_empty (fun _ => ⟨0, "NO OUTSTANDING REPLIES".data⟩)
    ⟨["999".data], none, none, none⟩ [] rfl rfl

end ZosCore

